import Mathlib

/-!
Verification of the style-resolution and layout engine of a small browser
rendering core. The Rust source is shallowly embedded: machine floats
(f32) are modelled by the rationals, the Rust HashMap property map is
modelled by an association list with most-recent-insert-first lookup, and
the single fatal condition of the engine (an unimplemented CSS unit where
a numeric width is required) is modelled by an Except monad. Recursion of
the layout pass, which may lay a child out twice during row wrapping, is
driven by a fuel parameter instantiated with the depth of the styled tree.
-/

namespace Browser

/-! ## css.rs : value types -/

/-- Embedding of enum Unit from css.rs. -/
inductive Unit where
  | Em | Ex | Ch | Rem | Vh | Vw | Vmin | Vmax | Px | Mm | Q | Cm | In | Pt | Pc | Pct
deriving DecidableEq

/-- Embedding of enum Value from css.rs; the Color struct is inlined as
four rational components. -/
inductive Value where
  | Color (r g b a : ℚ)
  | Length (n : ℚ) (u : Unit)
  | Other (s : String)
deriving DecidableEq

/-- Embedding of struct SimpleSelector from css.rs. -/
structure SimpleSelector where
  tag_name : Option String
  id : Option String
  classes : List String
deriving DecidableEq

/-- Embedding of struct Selector from css.rs; the combinators field is
kept for data fidelity although matching never reads it. -/
structure Selector where
  simple : List SimpleSelector
  combinators : List Char
deriving DecidableEq

/-- Embedding of struct Declaration from css.rs. -/
structure Declaration where
  property : String
  value : Value
deriving DecidableEq

/-- Embedding of struct Rule from css.rs. -/
structure Rule where
  selectors : List Selector
  declarations : List Declaration
deriving DecidableEq

/-- Embedding of struct Stylesheet from css.rs. -/
structure Stylesheet where
  rules : List Rule
deriving DecidableEq

/-! ## dom model

The dom module of the repository is not under src; only style.rs consumes
it here. Modelled from the spec, section 6: an element carries a tag name,
an attribute mapping with reserved id and class keys, the class value
split into a set of tokens. We model the observable interface used by the
style resolver directly: tag name, optional id, class token list. -/

/-- Modelled from the spec: element data consumed by selector matching
(dom.rs is not under src). -/
structure ElementData where
  tag_name : String
  id : Option String
  classes : List String
deriving DecidableEq

/-- Embedding of ElementData.get_id. -/
def ElementData.get_id (e : ElementData) : Option String := e.id

/-- Embedding of ElementData.get_classes. -/
def ElementData.get_classes (e : ElementData) : List String := e.classes

/-! ## style.rs : styled tree and cascade -/

/-- A resolved property mapping. The Rust HashMap with insert-overwrite is
modelled by an association list: insertion conses in front, lookup takes
the first hit, so a later insertion shadows an earlier one. -/
abbrev PropertyMap : Type := List (String × Value)

/-- HashMap.insert of the property map model: cons in front. -/
def PropertyMap.insertProp (m : PropertyMap) (k : String) (v : Value) : PropertyMap :=
  (k, v) :: m

/-- HashMap.get of the property map model: first binding wins. -/
def PropertyMap.lookup (m : PropertyMap) (k : String) : Option Value :=
  (List.find? (fun p => p.1 == k) m).map (fun p => p.2)

/-- Embedding of struct StyledNode from style.rs. The dom node reference
is dropped: layout reads only the styles and the children. -/
inductive StyledNode where
  | mk (styles : PropertyMap) (children : List StyledNode)

/-- The styles field of a styled node. -/
def StyledNode.styles : StyledNode → PropertyMap
  | .mk s _ => s

/-- The children field of a styled node. -/
def StyledNode.children : StyledNode → List StyledNode
  | .mk _ c => c

/-- Embedding of StyledNode::value from style.rs. -/
def StyledNode.value (s : StyledNode) (name : String) : Option Value :=
  s.styles.lookup name

/-- Embedding of enum Display from style.rs. -/
inductive Display where
  | Block | Inline | InlineBlock | None
deriving DecidableEq

/-- Embedding of StyledNode::get_display from style.rs. -/
def StyledNode.get_display (s : StyledNode) : Display :=
  match s.value "display" with
  | some (Value.Other v) =>
    match v with
    | "block" => Display.Block
    | "none" => Display.None
    | "inline-block" => Display.InlineBlock
    | _ => Display.Inline
  | some _ => Display.Inline
  | none => Display.Inline

/-- Embedding of StyledNode::num_or from style.rs: a Length value yields
its raw magnitude whatever its unit; anything else yields the default. -/
def StyledNode.num_or (s : StyledNode) (name : String) (default : ℚ) : ℚ :=
  match s.value name with
  | some (Value.Length n _) => n
  | some _ => default
  | none => default

/-- Loop body of selector_matches from style.rs: walk the simple-selector
alternatives; a continue in the source is the tail call on the rest. A
simple selector is passed when the tag name is absent or equal, the id is
absent or equal (an element without id fails any alternative with an id),
and every required class is among the element classes. -/
def selMatchGo (e : ElementData) : List SimpleSelector → Bool
  | [] => false
  | ss :: rest =>
    let tagOk : Bool :=
      match ss.tag_name with
      | some t => t == e.tag_name
      | none => true
    let idOk : Bool :=
      match e.get_id, ss.id with
      | some i, some j => i == j
      | some _, none => true
      | none, some _ => false
      | none, none => true
    if tagOk && idOk && ss.classes.all (fun c => e.get_classes.contains c) then
      true
    else
      selMatchGo e rest

/-- Embedding of selector_matches from style.rs. -/
def selector_matches (e : ElementData) (sel : Selector) : Bool :=
  selMatchGo e sel.simple

/-- Inner selector loop of StyledNode::get_styles: stop at the first
matching alternative of the rule, then copy every declaration of the rule
into the mapping; with no matching alternative the mapping is unchanged. -/
def applyRuleGo (e : ElementData) (decls : List Declaration) (styles : PropertyMap) :
    List Selector → PropertyMap
  | [] => styles
  | sel :: rest =>
    if selector_matches e sel then
      decls.foldl (fun st d => st.insertProp d.property d.value) styles
    else
      applyRuleGo e decls styles rest

/-- Embedding of StyledNode::get_styles from style.rs: fold the rules of
the stylesheet in document order. -/
def get_styles (e : ElementData) (sheet : Stylesheet) : PropertyMap :=
  sheet.rules.foldl (fun styles rule => applyRuleGo e rule.declarations styles rule.selectors) []

/-! ## layout.rs : geometry value types -/

/-- Embedding of struct Rectangle from layout.rs; Default derives to all
zero fields. -/
structure Rectangle where
  x : ℚ := 0
  y : ℚ := 0
  width : ℚ := 0
  height : ℚ := 0
deriving DecidableEq

/-- Embedding of struct EdgeSizes from layout.rs. -/
structure EdgeSizes where
  left : ℚ := 0
  right : ℚ := 0
  top : ℚ := 0
  bottom : ℚ := 0
deriving DecidableEq

/-- Embedding of struct Dimensions from layout.rs. -/
structure Dimensions where
  content : Rectangle := {}
  padding : EdgeSizes := {}
  border : EdgeSizes := {}
  margin : EdgeSizes := {}
  current : Rectangle := {}
deriving DecidableEq

/-- The all-zero Dimensions record, as produced by Default::default(). -/
def Dimensions.default0 : Dimensions := {}

/-- Embedding of Rectangle::expanded from layout.rs. -/
def Rectangle.expanded (r : Rectangle) (e : EdgeSizes) : Rectangle :=
  { x := r.x - e.left
    y := r.y - e.top
    width := r.width + e.left + e.right
    height := r.height + e.top + e.bottom }

/-- Embedding of Dimensions::padding_box from layout.rs. -/
def Dimensions.padding_box (d : Dimensions) : Rectangle :=
  d.content.expanded d.padding

/-- Embedding of Dimensions::border_box from layout.rs. -/
def Dimensions.border_box (d : Dimensions) : Rectangle :=
  d.padding_box.expanded d.border

/-- Embedding of Dimensions::margin_box from layout.rs. -/
def Dimensions.margin_box (d : Dimensions) : Rectangle :=
  d.border_box.expanded d.margin

/-- Embedding of enum BoxType from layout.rs. -/
inductive BoxType where
  | Block | Inline | InlineBlock | Anonymous
deriving DecidableEq

/-- Embedding of struct LayoutBox from layout.rs. The styled-node
reference becomes a copy of the styled node; the box is created with
default dimensions and mutated by the layout pass, so the dimensions
field here carries the current state. -/
inductive LayoutBox where
  | mk (box_type : BoxType) (styled_node : StyledNode) (dimensions : Dimensions)
      (children : List LayoutBox)

/-- The box_type field of a layout box. -/
def LayoutBox.box_type : LayoutBox → BoxType
  | .mk t _ _ _ => t

/-- The styled_node field of a layout box. -/
def LayoutBox.styled_node : LayoutBox → StyledNode
  | .mk _ s _ _ => s

/-- The dimensions field of a layout box. -/
def LayoutBox.dimensions : LayoutBox → Dimensions
  | .mk _ _ d _ => d

/-- The children field of a layout box. -/
def LayoutBox.children : LayoutBox → List LayoutBox
  | .mk _ _ _ c => c

/-! ## layout.rs : the layout pass -/

/-- The single fatal condition of the engine: a CSS length unit that
cannot be converted where a numeric width is required. -/
inductive LayoutErr where
  | unimplementedUnit
deriving DecidableEq

/-- Model of str::parse over f32 restricted to plain decimal numerals:
an optional minus sign, a nonempty digit run, an optional point and
digit run. Any other shape fails, as the engine only ever feeds plain
numerals through this path. -/
def parseDigits : List Char → Option ℕ
  | [] => none
  | cs => if cs.all Char.isDigit then
      some (cs.foldl (fun acc c => 10 * acc + (c.toNat - 48)) 0)
    else none

/-- Unsigned part of the numeral model: digits with optional fraction. -/
def parseUnsigned (cs : List Char) : Option ℚ :=
  match cs.span Char.isDigit with
  | (ds, rest) =>
    match parseDigits ds with
    | none => none
    | some ip =>
      match rest with
      | [] => some (ip : ℚ)
      | '.' :: fs =>
        if fs.all Char.isDigit then
          some ((ip : ℚ) + (fs.foldl (fun acc c => 10 * acc + (c.toNat - 48)) 0 : ℚ) /
            ((10 : ℚ) ^ fs.length))
        else none
      | _ => none

/-- The numeral model with sign. -/
def parseNum (s : String) : Option ℚ :=
  match s.data with
  | '-' :: rest => (parseUnsigned rest).map (fun q => -q)
  | l => parseUnsigned l

/-- The numeric reading of a declared margin value inside
calculate_width: an Other string is parsed with fallback 0, every other
value shape counts as 0. -/
def otherNum : Value → ℚ
  | .Other s => (parseNum s).getD 0
  | _ => 0

/-- The declared-or-0 numeric margin of a styled node as calculate_width
extracts it. -/
def marginNum (s : StyledNode) (name : String) : ℚ :=
  match s.value name with
  | some v => otherNum v
  | none => 0

/-- Embedding of get_absolute_num from layout.rs: pixel lengths pass
through, percentages resolve against the containing content width, any
other unit is the fatal condition, non-Length values yield none. -/
def get_absolute_num (s : StyledNode) (b_box : Dimensions) (prop : String) :
    Except LayoutErr (Option ℚ) :=
  match s.value prop with
  | some (Value.Length l u) =>
    match u with
    | .Px => .ok (some l)
    | .Pct => .ok (some (l * b_box.content.width / 100))
    | _ => .error .unimplementedUnit
  | some _ => .ok none
  | none => .ok none

/-- Embedding of LayoutBox::calculate_width from layout.rs. The first
match arm of the source fires exactly when the resolved width is the
sentinel 0; the remaining arms case on declaredness of the margins. -/
def calculate_width (s : StyledNode) (d0 : Dimensions) (b_box : Dimensions) :
    Except LayoutErr Dimensions :=
  match get_absolute_num s b_box "width" with
  | .error e => .error e
  | .ok w0 =>
    let width : ℚ := w0.getD 0
    let margin_l : Option Value := s.value "margin-left"
    let margin_r : Option Value := s.value "margin-right"
    let margin_l_num : ℚ :=
      match margin_l with
      | some m => otherNum m
      | none => 0
    let margin_r_num : ℚ :=
      match margin_r with
      | some m => otherNum m
      | none => 0
    let d1 : Dimensions :=
      { d0 with
        border.left := s.num_or "border-left-width" 0
        border.right := s.num_or "border-right-width" 0
        padding.left := s.num_or "padding-left" 0
        padding.right := s.num_or "padding-right" 0 }
    let total : ℚ := width + margin_l_num + margin_r_num + d1.border.left + d1.border.right
      + d1.padding.left + d1.padding.right
    let underflow : ℚ := b_box.content.width - total
    if width = 0 then
      if underflow ≥ 0 then
        .ok { d1 with
          content.width := underflow
          margin.right := margin_r_num
          margin.left := margin_l_num }
      else
        .ok { d1 with
          margin.right := margin_r_num + underflow
          content.width := width
          margin.left := margin_l_num }
    else
      match margin_l, margin_r with
      | none, some _ =>
        .ok { d1 with
          margin.left := underflow
          margin.right := margin_r_num
          content.width := width }
      | some _, none =>
        .ok { d1 with
          margin.right := underflow
          margin.left := margin_l_num
          content.width := width }
      | none, none =>
        .ok { d1 with
          margin.left := underflow / 2
          margin.right := underflow / 2
          content.width := width }
      | some _, some _ =>
        .ok { d1 with
          margin.right := margin_r_num + underflow
          margin.left := margin_l_num
          content.width := width }

/-- Embedding of LayoutBox::calculate_position from layout.rs. -/
def calculate_position (s : StyledNode) (d0 : Dimensions) (b_box : Dimensions) : Dimensions :=
  let d1 : Dimensions :=
    { d0 with
      margin.top := s.num_or "margin-top" 0
      margin.bottom := s.num_or "margin-bottom" 0
      border.top := s.num_or "border-top-width" 0
      border.bottom := s.num_or "border-bottom-width" 0
      padding.top := s.num_or "padding-top" 0
      padding.bottom := s.num_or "padding-bottom" 0 }
  { d1 with
    content.x := b_box.content.x + d1.margin.left + d1.border.left + d1.padding.left
    content.y := b_box.content.height + b_box.content.y + d1.margin.top + d1.border.top
      + d1.padding.top }

/-- Embedding of LayoutBox::calculate_inline_width from layout.rs. -/
def calculate_inline_width (s : StyledNode) (d0 : Dimensions) (b_box : Dimensions) :
    Except LayoutErr Dimensions :=
  match get_absolute_num s b_box "width" with
  | .error e => .error e
  | .ok w0 =>
    .ok { d0 with
      content.width := w0.getD 0
      margin.left := s.num_or "margin-left" 0
      margin.right := s.num_or "margin-right" 0
      padding.left := s.num_or "padding-left" 0
      padding.right := s.num_or "padding-right" 0
      border.left := s.num_or "border-left-width" 0
      border.right := s.num_or "border-right-width" 0 }

/-- Embedding of LayoutBox::calculate_inline_position from layout.rs. -/
def calculate_inline_position (s : StyledNode) (d0 : Dimensions) (b_box : Dimensions) :
    Dimensions :=
  let d1 : Dimensions :=
    { d0 with
      margin.top := s.num_or "margin-top" 0
      margin.bottom := s.num_or "margin-bottom" 0
      border.top := s.num_or "border-top-width" 0
      border.bottom := s.num_or "border-bottom-width" 0
      padding.top := s.num_or "padding-top" 0
      padding.bottom := s.num_or "padding-bottom" 0 }
  { d1 with
    content.x := b_box.content.x + b_box.current.x + d1.margin.left + d1.border.left
      + d1.padding.left
    content.y := b_box.content.height + b_box.content.y + d1.margin.top + d1.border.top
      + d1.padding.top }

/-- Embedding of LayoutBox::calculate_height from layout.rs: an explicit
Length height overwrites the accumulated content height, whatever its
unit; anything else leaves the accumulated value. -/
def calculate_height (s : StyledNode) (d0 : Dimensions) : Dimensions :=
  match s.value "height" with
  | some (Value.Length n _) => { d0 with content.height := n }
  | some _ => d0
  | none => d0

/-- The leading match of the loop body in LayoutBox::layout_children: a
transition from an inline-block run to a block child flushes the pending
row height into the content height and resets the row cursor. -/
def preFlush (d : Dimensions) (maxH : ℚ) (prev child_type : BoxType) : Dimensions :=
  match prev, child_type with
  | .InlineBlock, .Block =>
    { d with content.height := d.content.height + maxH, current.x := 0 }
  | _, _ => d

/-- The row-maximum update of LayoutBox::layout_children: the running
maximum grows when the new margin-box height exceeds it. -/
def rowMax (new_height maxH : ℚ) : ℚ :=
  if new_height > maxH then new_height else maxH

/-- One iteration of the loop in LayoutBox::layout_children, processing
one child given the layout function for children, the in-progress parent
dimensions, the running row maximum and the previous box type. Returns
the updated dimensions, row maximum and the laid-out child. -/
def layout_child_step (layoutF : LayoutBox → Dimensions → Except LayoutErr LayoutBox)
    (d : Dimensions) (maxH : ℚ) (prev : BoxType) (c : LayoutBox) :
    Except LayoutErr (Dimensions × ℚ × LayoutBox) :=
  let dA : Dimensions := preFlush d maxH prev c.box_type
  match layoutF c dA with
  | .error e => .error e
  | .ok c1 =>
    let maxH1 : ℚ := rowMax c1.dimensions.margin_box.height maxH
    match c1.box_type with
    | .Block =>
      .ok ({ dA with content.height := dA.content.height + c1.dimensions.margin_box.height },
        maxH1, c1)
    | .InlineBlock =>
      let dB : Dimensions := { dA with current.x := dA.current.x + c1.dimensions.margin_box.width }
      if dB.current.x > dB.content.width then
        let dC : Dimensions :=
          { dB with content.height := dB.content.height + maxH1, current.x := 0 }
        match layoutF c1 dC with
        | .error e => .error e
        | .ok c2 =>
          .ok ({ dC with current.x := dC.current.x + c2.dimensions.margin_box.width }, maxH1, c2)
      else
        .ok (dB, maxH1, c1)
    | _ => .ok (dA, maxH1, c1)

/-- The loop of LayoutBox::layout_children over the child list. -/
def layout_children_go (layoutF : LayoutBox → Dimensions → Except LayoutErr LayoutBox)
    (d : Dimensions) (maxH : ℚ) (prev : BoxType) :
    List LayoutBox → Except LayoutErr (Dimensions × ℚ × List LayoutBox)
  | [] => .ok (d, maxH, [])
  | c :: cs =>
    match layout_child_step layoutF d maxH prev c with
    | .error e => .error e
    | .ok (d1, m1, c1) =>
      match layout_children_go layoutF d1 m1 c.box_type cs with
      | .error e => .error e
      | .ok (d2, m2, cs1) => .ok (d2, m2, c1 :: cs1)

/-- Embedding of LayoutBox::layout_block from layout.rs, parameterized by
the layout function used for the children. -/
def layout_block_with (layoutF : LayoutBox → Dimensions → Except LayoutErr LayoutBox)
    (b : LayoutBox) (b_box : Dimensions) : Except LayoutErr LayoutBox :=
  match calculate_width b.styled_node b.dimensions b_box with
  | .error e => .error e
  | .ok d1 =>
    let d2 := calculate_position b.styled_node d1 b_box
    match layout_children_go layoutF d2 0 .Block b.children with
    | .error e => .error e
    | .ok (d3, _, cs1) =>
      let d4 := calculate_height b.styled_node d3
      .ok (LayoutBox.mk b.box_type b.styled_node d4 cs1)

/-- Embedding of LayoutBox::layout_inline_block from layout.rs,
parameterized by the layout function used for the children. -/
def layout_inline_block_with (layoutF : LayoutBox → Dimensions → Except LayoutErr LayoutBox)
    (b : LayoutBox) (b_box : Dimensions) : Except LayoutErr LayoutBox :=
  match calculate_inline_width b.styled_node b.dimensions b_box with
  | .error e => .error e
  | .ok d1 =>
    let d2 := calculate_inline_position b.styled_node d1 b_box
    match layout_children_go layoutF d2 0 .Block b.children with
    | .error e => .error e
    | .ok (d3, _, cs1) =>
      let d4 := calculate_height b.styled_node d3
      .ok (LayoutBox.mk b.box_type b.styled_node d4 cs1)

/-- Embedding of LayoutBox::layout from layout.rs, with a fuel parameter
driving the recursion. The fuel is instantiated with the depth of the
tree, which every recursive call strictly dominates, so the fuel-zero
fallback (return the box untouched, like the Anonymous arm) is never
reached from the public entry point. -/
def layoutN : ℕ → LayoutBox → Dimensions → Except LayoutErr LayoutBox
  | 0, b, _ => .ok b
  | fuel + 1, b, b_box =>
    match b.box_type with
    | .Block => layout_block_with (layoutN fuel) b b_box
    | .Inline => layout_block_with (layoutN fuel) b b_box
    | .InlineBlock => layout_inline_block_with (layoutN fuel) b b_box
    | .Anonymous => .ok b

mutual

/-- Depth of a styled tree, at least 1 per node. -/
def styledDepth : StyledNode → ℕ
  | .mk _ cs => 1 + styledDepthList cs

/-- Maximum depth over a list of styled trees. -/
def styledDepthList : List StyledNode → ℕ
  | [] => 0
  | c :: cs => max (styledDepth c) (styledDepthList cs)

end

mutual

/-- Embedding of build_layout_tree from layout.rs: the node itself always
receives a box whose type is derived from its display value; children
whose display resolves to none are pruned together with their subtrees. -/
def build_layout_tree : StyledNode → LayoutBox
  | n@(.mk _ cs) =>
    LayoutBox.mk
      (match n.get_display with
       | .Block => BoxType.Block
       | .Inline => BoxType.Inline
       | .InlineBlock => BoxType.InlineBlock
       | .None => BoxType.Anonymous)
      n Dimensions.default0 (build_children cs)

/-- The child loop of build_layout_tree: push a box for every child whose
display is not none. -/
def build_children : List StyledNode → List LayoutBox
  | [] => []
  | c :: cs =>
    match c.get_display with
    | .None => build_children cs
    | _ => build_layout_tree c :: build_children cs

end

/-- Embedding of layout_tree from layout.rs: reset the accumulated
content height of the containing block, build the box tree, lay it out. -/
def layout_tree (root : StyledNode) (containing_block : Dimensions) :
    Except LayoutErr LayoutBox :=
  let cb : Dimensions := { containing_block with content.height := 0 }
  layoutN (styledDepth root) (build_layout_tree root) cb

/-! ## Specification-side definitions used to state the claims -/

/-- The underflow quantity of the width-resolution algorithm, expressed
over the styled node: containing content width minus the total of the
resolved width, the declared-or-0 numeric margins and the numeric edge
sizes. -/
def widthUnderflow (s : StyledNode) (b_box : Dimensions) (w : ℚ) : ℚ :=
  b_box.content.width - (w + marginNum s "margin-left" + marginNum s "margin-right"
    + s.num_or "border-left-width" 0 + s.num_or "border-right-width" 0
    + s.num_or "padding-left" 0 + s.num_or "padding-right" 0)

/-- A rule matches an element when some selector of the rule matches. -/
def matches_element (e : ElementData) (r : Rule) : Bool :=
  r.selectors.any (fun sel => selector_matches e sel)

/-- Specification of the cascade: the resolved value of a property is
the last declaration of that property among the matching rules taken in
document order. -/
def cascadeSpec (e : ElementData) (sheet : Stylesheet) (p : String) : Option Value :=
  (((sheet.rules.filter (matches_element e)).map Rule.declarations).flatten.reverse.find?
    (fun dec => dec.property == p)).map Declaration.value

/-- Specification of one simple-selector alternative: tag absent or
equal, id absent or equal to the element id, required classes a subset of
the element classes. -/
def simpleHolds (e : ElementData) (ss : SimpleSelector) : Prop :=
  (∀ t ∈ ss.tag_name, t = e.tag_name) ∧
  (ss.id = none ∨ ss.id = e.get_id) ∧
  (∀ c ∈ ss.classes, c ∈ e.get_classes)

/-- A value is size-nonnegative when every Length magnitude in it is
nonnegative. -/
def valNonneg : Value → Prop
  | .Length n _ => 0 ≤ n
  | _ => True

/-- Every value bound in the mapping is size-nonnegative. -/
def stylesNonneg (m : PropertyMap) : Prop :=
  ∀ p ∈ m, valNonneg p.2

/-- The styles of the node itself are size-nonnegative. -/
def nodeStylesNonneg (n : StyledNode) : Prop :=
  stylesNonneg n.styles

/-- The size fields of a Dimensions record that the layout invariant
constrains: content extent, padding, border and the vertical margins.
The horizontal margins are exempt, since the width algorithm assigns the
underflow to them and the underflow may be negative. -/
def dimsSizesOk (d : Dimensions) : Prop :=
  0 ≤ d.content.width ∧ 0 ≤ d.content.height ∧
  0 ≤ d.padding.left ∧ 0 ≤ d.padding.right ∧ 0 ≤ d.padding.top ∧ 0 ≤ d.padding.bottom ∧
  0 ≤ d.border.left ∧ 0 ≤ d.border.right ∧ 0 ≤ d.border.top ∧ 0 ≤ d.border.bottom ∧
  0 ≤ d.margin.top ∧ 0 ≤ d.margin.bottom

/-- Invariant carried through the layout recursion: the styles of the
box are size-nonnegative and its current dimensions satisfy the size
invariant. -/
def boxPre (b : LayoutBox) : Prop :=
  stylesNonneg b.styled_node.styles ∧ dimsSizesOk b.dimensions

/-- A predicate holds on every box of a layout tree. -/
inductive BoxAll (P : LayoutBox → Prop) : LayoutBox → Prop where
  | mk : ∀ (t : BoxType) (s : StyledNode) (d : Dimensions) (cs : List LayoutBox),
      P (LayoutBox.mk t s d cs) → (∀ c ∈ cs, BoxAll P c) → BoxAll P (LayoutBox.mk t s d cs)

/-- A predicate holds on every node of a styled tree. -/
inductive SNodeAll (P : StyledNode → Prop) : StyledNode → Prop where
  | mk : ∀ (st : PropertyMap) (cs : List StyledNode),
      P (StyledNode.mk st cs) → (∀ c ∈ cs, SNodeAll P c) → SNodeAll P (StyledNode.mk st cs)

/-! ## Concrete fixtures named in the claims -/

/-- A containing block of content width 200. -/
def cb200 : Dimensions := { content := { width := 200 } }

/-- A containing block of content width 100. -/
def cb100 : Dimensions := { content := { width := 100 } }

/-- A containing block of content width 50. -/
def cb50 : Dimensions := { content := { width := 50 } }

/-- A styled node with no declarations. -/
def snEmpty : StyledNode := .mk [] []

/-- A styled node declaring width 100 pixels and nothing else. -/
def snW100 : StyledNode := .mk [("width", .Length 100 .Px)] []

/-- A styled node declaring width 100 pixels and numeric margins 20. -/
def snC3 : StyledNode :=
  .mk [("width", .Length 100 .Px), ("margin-left", .Other "20"), ("margin-right", .Other "20")] []

/-- An inline-block styled node of width 40 and height 10 pixels. -/
def snIB : StyledNode :=
  .mk [("display", .Other "inline-block"), ("width", .Length 40 .Px), ("height", .Length 10 .Px)] []

/-- A parent with three inline-block children of width 40. -/
def snParent4 : StyledNode := .mk [] [snIB, snIB, snIB]

/-- A parent with two inline-block children of width 40. -/
def snParent4b : StyledNode := .mk [] [snIB, snIB]

/-- An inline-block styled node of width 40 and height 50 pixels. -/
def snIB50 : StyledNode :=
  .mk [("display", .Other "inline-block"), ("width", .Length 40 .Px), ("height", .Length 50 .Px)] []

/-- A parent with five inline-block children of width 40: one of height
50 followed by four of height 10. -/
def snParent4c : StyledNode := .mk [] [snIB50, snIB, snIB, snIB, snIB]

/-- A styled node declaring a height of 10 in the em unit. -/
def snHEm : StyledNode := .mk [("height", .Length 10 .Em)] []

/-- A styled node declaring a width of 10 in the em unit. -/
def snWEm : StyledNode := .mk [("width", .Length 10 .Em)] []

/-- A styled node declaring a margin-left of 5 in the em unit and a
padding-left of 7 centimeters. -/
def snEmMargin : StyledNode :=
  .mk [("margin-left", .Length 5 .Em), ("padding-left", .Length 7 .Cm)] []

/-- A block-display styled leaf. -/
def snBlockChild : StyledNode := .mk [("display", .Other "block")] []

/-- A none-display root with one block child. -/
def snNoneRoot : StyledNode := .mk [("display", .Other "none")] [snBlockChild]

/-- A block-display leaf of height 30. -/
def snB30 : StyledNode := .mk [("display", .Other "block"), ("height", .Length 30 .Px)] []

/-- A none-display node owning a block child. -/
def snNoneChild : StyledNode := .mk [("display", .Other "none")] [snB30]

/-- A block parent with a none-display middle child between two block
children of height 30. -/
def snNoneMid : StyledNode := .mk [] [snB30, snNoneChild, snB30]

/-- The same parent without the none-display middle child. -/
def snNoneMidGone : StyledNode := .mk [] [snB30, snB30]

/-- A containing block of width 100 with the row cursor at 40. -/
def dWit : Dimensions := { content := { width := 100 }, current := { x := 40 } }

/-- Stylesheet rule setting color red on class a. -/
def ruleA : Rule :=
  ⟨[⟨[⟨none, none, ["a"]⟩], []⟩], [⟨"color", .Other "red"⟩]⟩

/-- Stylesheet rule setting color blue on class b. -/
def ruleB : Rule :=
  ⟨[⟨[⟨none, none, ["b"]⟩], []⟩], [⟨"color", .Other "blue"⟩]⟩

/-- The two-rule stylesheet of the cascade-order test. -/
def sheetAB : Stylesheet := { rules := [ruleA, ruleB] }

/-- An element carrying both class a and class b. -/
def elemAB : ElementData := { tag_name := "div", id := none, classes := ["a", "b"] }

/-- The selector with alternatives div.x and span. -/
def selC8 : Selector :=
  ⟨[⟨some "div", none, ["x"]⟩, ⟨some "span", none, []⟩], []⟩

/-- A span element without classes. -/
def elemSpan : ElementData := { tag_name := "span", id := none, classes := [] }

/-! ## Extraction helpers for closed concrete statements -/

/-- Read a field of the dimensions produced by a width computation,
with an out-of-band default on error. -/
def cwField (r : Except LayoutErr Dimensions) (f : Dimensions → ℚ) : ℚ :=
  match r with
  | .ok d => f d
  | .error _ => -1000

/-- Read a field of the root dimensions of a layout result. -/
def resField (r : Except LayoutErr LayoutBox) (f : Dimensions → ℚ) : ℚ :=
  match r with
  | .ok b => f b.dimensions
  | .error _ => -1000

/-- The content x of every child of the root of a layout result. -/
def childrenXs (r : Except LayoutErr LayoutBox) : List ℚ :=
  match r with
  | .ok b => b.children.map (fun c : LayoutBox => c.dimensions.content.x)
  | .error _ => []

/-- The content y of every child of the root of a layout result. -/
def childrenYs (r : Except LayoutErr LayoutBox) : List ℚ :=
  match r with
  | .ok b => b.children.map (fun c : LayoutBox => c.dimensions.content.y)
  | .error _ => []

/-- The box of a successful layout result, with a default fallback. -/
def resultBox (r : Except LayoutErr LayoutBox) (dflt : LayoutBox) : LayoutBox :=
  match r with
  | .ok b => b
  | .error _ => dflt

/-- Whether a layout result is a success. -/
def resultOk (r : Except LayoutErr LayoutBox) : Bool :=
  match r with
  | .ok _ => true
  | .error _ => false

/-! ## Shared lemmas -/

attribute [local semireducible] Rat.add Rat.sub Rat.mul Rat.inv

/-- The pre-flush either leaves the dimensions alone or adds the pending
row height and resets the cursor. -/
theorem preFlush_cases (d : Dimensions) (m : ℚ) (p t : BoxType) :
    preFlush d m p t = d ∨
    preFlush d m p t = { d with content.height := d.content.height + m, current.x := 0 } := by
  unfold preFlush
  cases p <;> cases t <;> simp

/-- The pre-flush changes only the content height and the row cursor. -/
theorem preFlush_keeps (d : Dimensions) (m : ℚ) (p t : BoxType) :
    (preFlush d m p t).content.x = d.content.x ∧
    (preFlush d m p t).content.y = d.content.y ∧
    (preFlush d m p t).content.width = d.content.width ∧
    (preFlush d m p t).padding = d.padding ∧
    (preFlush d m p t).border = d.border ∧
    (preFlush d m p t).margin = d.margin := by
  rcases preFlush_cases d m p t with h | h <;> rw [h] <;> exact ⟨rfl, rfl, rfl, rfl, rfl, rfl⟩

/-- An inline-block child never triggers the pre-flush. -/
theorem preFlush_inline (d : Dimensions) (m : ℚ) (p : BoxType) :
    preFlush d m p .InlineBlock = d := by
  cases p <;> rfl

/-- The layout pass keeps the box type of the box it lays out. -/
theorem layoutN_box_type (fuel : ℕ) (b : LayoutBox) (b_box : Dimensions) (b' : LayoutBox)
    (h : layoutN fuel b b_box = .ok b') : b'.box_type = b.box_type := by
  cases fuel with
  | zero =>
    injection h with h1; subst h1; rfl
  | succ fuel =>
    unfold layoutN at h
    split at h
    all_goals first
    | (injection h with h1; subst h1; rfl)
    | (unfold layout_block_with at h
       split at h
       · exact Except.noConfusion h
       · dsimp only [] at h
         split at h
         · exact Except.noConfusion h
         · injection h with h1; subst h1; rfl)
    | (unfold layout_inline_block_with at h
       split at h
       · exact Except.noConfusion h
       · dsimp only [] at h
         split at h
         · exact Except.noConfusion h
         · injection h with h1; subst h1; rfl)

/-- One loop iteration of layout_children changes only the content
height and the row cursor of the parent dimensions. -/
theorem layout_child_step_keeps
    (F : LayoutBox → Dimensions → Except LayoutErr LayoutBox)
    (d : Dimensions) (maxH : ℚ) (prev : BoxType) (c : LayoutBox)
    (r : Dimensions × ℚ × LayoutBox)
    (h : layout_child_step F d maxH prev c = .ok r) :
    r.1.content.x = d.content.x ∧ r.1.content.y = d.content.y ∧
    r.1.content.width = d.content.width ∧
    r.1.padding = d.padding ∧ r.1.border = d.border ∧ r.1.margin = d.margin := by
  obtain ⟨k1, k2, k3, k4, k5, k6⟩ := preFlush_keeps d maxH prev c.box_type
  unfold layout_child_step at h
  dsimp only [] at h
  split at h
  · exact Except.noConfusion h
  · split at h
    · injection h with h1; subst h1
      exact ⟨k1, k2, k3, k4, k5, k6⟩
    · split at h
      · split at h
        · exact Except.noConfusion h
        · injection h with h1; subst h1
          exact ⟨k1, k2, k3, k4, k5, k6⟩
      · injection h with h1; subst h1
        exact ⟨k1, k2, k3, k4, k5, k6⟩
    · injection h with h1; subst h1
      exact ⟨k1, k2, k3, k4, k5, k6⟩

/-- The child loop of layout_children changes only the content height
and the row cursor of the parent dimensions. -/
theorem layout_children_go_keeps
    (F : LayoutBox → Dimensions → Except LayoutErr LayoutBox) :
    ∀ (cs : List LayoutBox) (d : Dimensions) (maxH : ℚ) (prev : BoxType)
      (r : Dimensions × ℚ × List LayoutBox),
      layout_children_go F d maxH prev cs = .ok r →
      r.1.content.x = d.content.x ∧ r.1.content.y = d.content.y ∧
      r.1.content.width = d.content.width ∧
      r.1.padding = d.padding ∧ r.1.border = d.border ∧ r.1.margin = d.margin
  | [], d, maxH, prev, r, h => by
    injection h with h1; subst h1
    exact ⟨rfl, rfl, rfl, rfl, rfl, rfl⟩
  | c :: cs, d, maxH, prev, r, h => by
    unfold layout_children_go at h
    cases hs : layout_child_step F d maxH prev c with
    | error e => rw [hs] at h; exact Except.noConfusion h
    | ok p =>
      obtain ⟨d1, m1, c1⟩ := p
      rw [hs] at h
      dsimp only [] at h
      cases hgo : layout_children_go F d1 m1 c.box_type cs with
      | error e => rw [hgo] at h; exact Except.noConfusion h
      | ok q =>
        obtain ⟨d2, m2, cs1⟩ := q
        rw [hgo] at h
        injection h with h1
        subst h1
        obtain ⟨a1, a2, a3, a4, a5, a6⟩ :=
          layout_child_step_keeps F d maxH prev c (d1, m1, c1) hs
        obtain ⟨b1, b2, b3, b4, b5, b6⟩ :=
          layout_children_go_keeps F cs d1 m1 c.box_type (d2, m2, cs1) hgo
        exact ⟨b1.trans a1, b2.trans a2, b3.trans a3, b4.trans a4, b5.trans a5, b6.trans a6⟩

/-- calculate_height changes only the content height. -/
theorem calculate_height_keeps (s : StyledNode) (d : Dimensions) :
    (calculate_height s d).content.x = d.content.x ∧
    (calculate_height s d).content.y = d.content.y ∧
    (calculate_height s d).content.width = d.content.width ∧
    (calculate_height s d).padding = d.padding ∧
    (calculate_height s d).border = d.border ∧
    (calculate_height s d).margin = d.margin := by
  unfold calculate_height
  split <;> exact ⟨rfl, rfl, rfl, rfl, rfl, rfl⟩

/-- The selector loop of get_styles applied to one rule: the mapping is
extended exactly when some alternative matches, and the extension does
not depend on which alternative matched first. -/
theorem applyRuleGo_eq (e : ElementData) (decls : List Declaration) (styles : PropertyMap) :
    ∀ sels : List Selector,
      applyRuleGo e decls styles sels =
        if sels.any (fun sel => selector_matches e sel) then
          decls.foldl (fun st dec => st.insertProp dec.property dec.value) styles
        else styles
  | [] => by simp [applyRuleGo]
  | sel :: rest => by
    unfold applyRuleGo
    by_cases h : selector_matches e sel
    · simp [h]
    · simp [h, applyRuleGo_eq e decls styles rest]

/-- Folding the declarations of one rule into the mapping: the last
declaration of the looked-up property wins, earlier bindings survive when
the rule does not declare the property. -/
theorem lookup_insert_decls (p : String) :
    ∀ (decls : List Declaration) (st : PropertyMap),
      (decls.foldl (fun st dec => st.insertProp dec.property dec.value) st).lookup p =
        match decls.reverse.find? (fun dec => dec.property == p) with
        | some dec => some dec.value
        | none => st.lookup p
  | [], st => by simp
  | dec :: ds, st => by
    have ih := lookup_insert_decls p ds (st.insertProp dec.property dec.value)
    simp only [List.foldl_cons] at *
    rw [ih]
    rw [List.reverse_cons, List.find?_append]
    cases hf : ds.reverse.find? (fun d0 => d0.property == p) with
    | some q => simp [hf]
    | none =>
      simp only [hf, Option.none_orElse]
      by_cases hp : dec.property == p
      · simp [PropertyMap.lookup, PropertyMap.insertProp, hp, List.find?_cons]
      · simp [PropertyMap.lookup, PropertyMap.insertProp, List.find?_cons, hp]

/-- The rule fold of get_styles refines the cascade specification, with
an arbitrary starting mapping as fallback. -/
theorem get_styles_go (e : ElementData) (p : String) :
    ∀ (rules : List Rule) (st : PropertyMap),
      (rules.foldl (fun styles rule =>
          applyRuleGo e rule.declarations styles rule.selectors) st).lookup p =
        match ((rules.filter (matches_element e)).map Rule.declarations).flatten.reverse.find?
            (fun dec => dec.property == p) with
        | some dec => some dec.value
        | none => st.lookup p
  | [], st => by simp
  | rule :: rs, st => by
    have ih := get_styles_go e p rs (applyRuleGo e rule.declarations st rule.selectors)
    simp only [List.foldl_cons]
    rw [ih, applyRuleGo_eq]
    by_cases hm : matches_element e rule
    · have hm2 : rule.selectors.any (fun sel => selector_matches e sel) = true := hm
      rw [if_pos hm2]
      simp only [List.filter_cons, hm, if_true]
      rw [List.map_cons, List.flatten_cons, List.reverse_append, List.find?_append]
      cases hf : ((rs.filter (matches_element e)).map Rule.declarations).flatten.reverse.find?
          (fun dec => dec.property == p) with
      | some q => simp [hf]
      | none =>
        simp only [hf, Option.none_or, Option.none_orElse]
        rw [lookup_insert_decls]
    · have hm2 : ¬ rule.selectors.any (fun sel => selector_matches e sel) = true := hm
      rw [if_neg hm2]
      have hm3 : matches_element e rule = false := by
        cases hq : matches_element e rule
        · rfl
        · exact absurd hq hm
      simp only [List.filter_cons, hm3, if_false]
      rfl

/-- Lookup in the resolved styles equals the cascade specification. -/
theorem get_styles_lookup (e : ElementData) (sheet : Stylesheet) (p : String) :
    (get_styles e sheet).lookup p = cascadeSpec e sheet p := by
  unfold get_styles cascadeSpec
  rw [get_styles_go]
  cases hf : ((sheet.rules.filter (matches_element e)).map Rule.declarations).flatten.reverse.find?
      (fun dec => dec.property == p) with
  | some q => simp [hf]
  | none => simp [hf, PropertyMap.lookup]

theorem simple_cond_iff (e : ElementData) (ss : SimpleSelector) :
    (((match ss.tag_name with
       | some t => t == e.tag_name
       | none => true) &&
      (match e.get_id, ss.id with
       | some i, some j => i == j
       | some _, none => true
       | none, some _ => false
       | none, none => true)) &&
     ss.classes.all (fun c => e.get_classes.contains c)) = true ↔ simpleHolds e ss := by
  unfold simpleHolds
  cases ht : ss.tag_name <;> cases hi : ss.id <;> cases hei : e.get_id <;>
    simp [hei, List.all_eq_true] <;>
    tauto

theorem selMatchGo_iff (e : ElementData) :
    ∀ l : List SimpleSelector, selMatchGo e l = true ↔ ∃ ss ∈ l, simpleHolds e ss
  | [] => by simp [selMatchGo]
  | ss :: rest => by
    have ih := selMatchGo_iff e rest
    have hc := simple_cond_iff e ss
    unfold selMatchGo
    dsimp only []
    split_ifs with hcnd
    · constructor
      · intro _
        exact ⟨ss, List.mem_cons_self ss rest, hc.mp hcnd⟩
      · intro _
        rfl
    · rw [ih]
      constructor
      · rintro ⟨x, hx, hpx⟩
        exact ⟨x, List.mem_cons_of_mem ss hx, hpx⟩
      · rintro ⟨x, hx, hpx⟩
        rcases List.mem_cons.mp hx with rfl | hx2
        · exact absurd (hc.mpr hpx) hcnd
        · exact ⟨x, hx2, hpx⟩

theorem selector_matches_iff (e : ElementData) (sel : Selector) :
    selector_matches e sel = true ↔ ∃ ss ∈ sel.simple, simpleHolds e ss :=
  selMatchGo_iff e sel.simple

theorem selector_matches_ignores_combinators (e : ElementData)
    (simple : List SimpleSelector) (c1 c2 : List Char) :
    selector_matches e ⟨simple, c1⟩ = selector_matches e ⟨simple, c2⟩ := rfl

/-- Where an inline-block box is placed: containing content origin
plus the row cursor plus its own left and top edges. -/
theorem inline_place (fuel : ℕ) (c : LayoutBox) (d : Dimensions) (c1 : LayoutBox)
    (hc : c.box_type = .InlineBlock)
    (h : layoutN (fuel + 1) c d = .ok c1) :
    c1.dimensions.content.x = d.content.x + d.current.x
      + c.styled_node.num_or "margin-left" 0 + c.styled_node.num_or "border-left-width" 0
      + c.styled_node.num_or "padding-left" 0 ∧
    c1.dimensions.content.y = d.content.height + d.content.y
      + c.styled_node.num_or "margin-top" 0 + c.styled_node.num_or "border-top-width" 0
      + c.styled_node.num_or "padding-top" 0 := by
  unfold layoutN at h
  rw [hc] at h
  unfold layout_inline_block_with at h
  cases hw : calculate_inline_width c.styled_node c.dimensions d with
  | error e => rw [hw] at h; exact Except.noConfusion h
  | ok d1 =>
    rw [hw] at h
    dsimp only [] at h
    cases hgo : layout_children_go (layoutN fuel)
        (calculate_inline_position c.styled_node d1 d) 0 BoxType.Block c.children with
    | error e => rw [hgo] at h; exact Except.noConfusion h
    | ok q =>
      obtain ⟨d3, m3, cs1⟩ := q
      rw [hgo] at h
      injection h with h1
      subst h1
      obtain ⟨hkx, hky, _⟩ := calculate_height_keeps c.styled_node d3
      obtain ⟨gx, gy, _⟩ := layout_children_go_keeps (layoutN fuel) c.children
        (calculate_inline_position c.styled_node d1 d) 0 BoxType.Block (d3, m3, cs1) hgo
      -- d1 margins from calculate_inline_width
      have hd1 : d1.margin.left = c.styled_node.num_or "margin-left" 0 ∧
          d1.border.left = c.styled_node.num_or "border-left-width" 0 ∧
          d1.padding.left = c.styled_node.num_or "padding-left" 0 := by
        unfold calculate_inline_width at hw
        cases hga : get_absolute_num c.styled_node d "width" with
        | error e => rw [hga] at hw; exact Except.noConfusion hw
        | ok w0 =>
          rw [hga] at hw
          injection hw with hw1
          subst hw1
          exact ⟨rfl, rfl, rfl⟩
      constructor
      · dsimp only [LayoutBox.dimensions]
        rw [hkx, gx]
        unfold calculate_inline_position
        dsimp only []
        rw [hd1.1, hd1.2.1, hd1.2.2]
      · dsimp only [LayoutBox.dimensions]
        rw [hky, gy]
        unfold calculate_inline_position
        dsimp only []

theorem stylesNonneg_lookup (m : PropertyMap) (p : String) (n : ℚ) (u : Unit)
    (hm : stylesNonneg m) (h : m.lookup p = some (.Length n u)) : 0 ≤ n := by
  unfold PropertyMap.lookup at h
  cases hf : List.find? (fun q => q.1 == p) m with
  | none => rw [hf] at h; exact Option.noConfusion h
  | some q =>
    rw [hf] at h
    injection h with h1
    have hmem := List.mem_of_find?_eq_some hf
    have h1q : q.2 = Value.Length n u := h1
    have h2 := hm q hmem
    rw [h1q] at h2
    exact h2

theorem value_nonneg (s : StyledNode) (p : String) (n : ℚ) (u : Unit)
    (hs : stylesNonneg s.styles) (h : s.value p = some (.Length n u)) : 0 ≤ n :=
  stylesNonneg_lookup s.styles p n u hs h

theorem num_or_nonneg (s : StyledNode) (name : String)
    (hs : stylesNonneg s.styles) : 0 ≤ s.num_or name 0 := by
  unfold StyledNode.num_or
  cases hv : s.value name with
  | none => exact le_refl 0
  | some v =>
    cases v with
    | Length n u => exact value_nonneg s name n u hs hv
    | Color r g b a => exact le_refl 0
    | Other str => exact le_refl 0

theorem get_absolute_num_nonneg (s : StyledNode) (b_box : Dimensions) (p : String) (q : ℚ)
    (hs : stylesNonneg s.styles) (hb : 0 ≤ b_box.content.width)
    (h : get_absolute_num s b_box p = .ok (some q)) : 0 ≤ q := by
  unfold get_absolute_num at h
  cases hv : s.value p with
  | none => rw [hv] at h; injection h with h1; exact Option.noConfusion h1
  | some v =>
    rw [hv] at h
    cases v with
    | Length n u =>
      have hn := value_nonneg s p n u hs hv
      cases u <;> first
      | exact Except.noConfusion h
      | (injection h with h1; injection h1 with h2; subst h2; exact hn)
      | (injection h with h1; injection h1 with h2; subst h2
         exact div_nonneg (mul_nonneg hn hb) (by norm_num))
    | Color r g b a => injection h with h1; exact Option.noConfusion h1
    | Other str => injection h with h1; exact Option.noConfusion h1

theorem margin_box_height_nonneg (d : Dimensions) (hd : dimsSizesOk d) :
    0 ≤ d.margin_box.height := by
  obtain ⟨h1, h2, h3, h4, h5, h6, h7, h8, h9, h10, h11, h12⟩ := hd
  unfold Dimensions.margin_box Dimensions.border_box Dimensions.padding_box Rectangle.expanded
  dsimp only []
  linarith

theorem margin_box_height_eq (d : Dimensions) :
    d.margin_box.height = d.content.height + d.padding.top + d.padding.bottom
      + d.border.top + d.border.bottom + d.margin.top + d.margin.bottom := by
  unfold Dimensions.margin_box Dimensions.border_box Dimensions.padding_box Rectangle.expanded
  dsimp only []

/-- The width pass keeps the size invariant when the styles are
nonnegative and the containing width is nonnegative. -/
theorem calculate_width_sizesOk (s : StyledNode) (d0 b_box : Dimensions) (d1 : Dimensions)
    (hs : stylesNonneg s.styles) (hd0 : dimsSizesOk d0) (hb : 0 ≤ b_box.content.width)
    (h : calculate_width s d0 b_box = .ok d1) : dimsSizesOk d1 := by
  obtain ⟨e1, e2, e3, e4, e5, e6, e7, e8, e9, e10, e11, e12⟩ := hd0
  have hbl := num_or_nonneg s "border-left-width" hs
  have hbr := num_or_nonneg s "border-right-width" hs
  have hpl := num_or_nonneg s "padding-left" hs
  have hpr := num_or_nonneg s "padding-right" hs
  unfold calculate_width at h
  cases hga : get_absolute_num s b_box "width" with
  | error e => rw [hga] at h; exact Except.noConfusion h
  | ok w0 =>
    have hw0 : 0 ≤ w0.getD 0 := by
      cases w0 with
      | none => exact le_refl 0
      | some q => exact get_absolute_num_nonneg s b_box "width" q hs hb hga
    rw [hga] at h
    dsimp only [] at h
    split at h
    · rename_i hzero
      split at h
      · rename_i hunder
        injection h with h1
        subst h1
        exact ⟨hunder, e2, hpl, hpr, e5, e6, hbl, hbr, e9, e10, e11, e12⟩
      · injection h with h1
        subst h1
        exact ⟨hw0, e2, hpl, hpr, e5, e6, hbl, hbr, e9, e10, e11, e12⟩
    · split at h <;>
      · injection h with h1
        subst h1
        exact ⟨hw0, e2, hpl, hpr, e5, e6, hbl, hbr, e9, e10, e11, e12⟩

theorem calculate_position_sizesOk (s : StyledNode) (d0 b_box : Dimensions)
    (hs : stylesNonneg s.styles) (hd0 : dimsSizesOk d0) :
    dimsSizesOk (calculate_position s d0 b_box) := by
  obtain ⟨e1, e2, e3, e4, e5, e6, e7, e8, e9, e10, e11, e12⟩ := hd0
  unfold calculate_position
  dsimp only []
  exact ⟨e1, e2, e3, e4, num_or_nonneg s "padding-top" hs, num_or_nonneg s "padding-bottom" hs,
    e7, e8, num_or_nonneg s "border-top-width" hs, num_or_nonneg s "border-bottom-width" hs,
    num_or_nonneg s "margin-top" hs, num_or_nonneg s "margin-bottom" hs⟩

theorem calculate_inline_width_sizesOk (s : StyledNode) (d0 b_box : Dimensions) (d1 : Dimensions)
    (hs : stylesNonneg s.styles) (hd0 : dimsSizesOk d0) (hb : 0 ≤ b_box.content.width)
    (h : calculate_inline_width s d0 b_box = .ok d1) : dimsSizesOk d1 := by
  obtain ⟨e1, e2, e3, e4, e5, e6, e7, e8, e9, e10, e11, e12⟩ := hd0
  unfold calculate_inline_width at h
  cases hga : get_absolute_num s b_box "width" with
  | error e => rw [hga] at h; exact Except.noConfusion h
  | ok w0 =>
    have hw0 : 0 ≤ w0.getD 0 := by
      cases w0 with
      | none => exact le_refl 0
      | some q => exact get_absolute_num_nonneg s b_box "width" q hs hb hga
    rw [hga] at h
    injection h with h1
    subst h1
    exact ⟨hw0, e2, num_or_nonneg s "padding-left" hs, num_or_nonneg s "padding-right" hs,
      e5, e6, num_or_nonneg s "border-left-width" hs, num_or_nonneg s "border-right-width" hs,
      e9, e10, e11, e12⟩

theorem calculate_inline_position_sizesOk (s : StyledNode) (d0 b_box : Dimensions)
    (hs : stylesNonneg s.styles) (hd0 : dimsSizesOk d0) :
    dimsSizesOk (calculate_inline_position s d0 b_box) := by
  obtain ⟨e1, e2, e3, e4, e5, e6, e7, e8, e9, e10, e11, e12⟩ := hd0
  unfold calculate_inline_position
  dsimp only []
  exact ⟨e1, e2, e3, e4, num_or_nonneg s "padding-top" hs, num_or_nonneg s "padding-bottom" hs,
    e7, e8, num_or_nonneg s "border-top-width" hs, num_or_nonneg s "border-bottom-width" hs,
    num_or_nonneg s "margin-top" hs, num_or_nonneg s "margin-bottom" hs⟩

theorem calculate_height_sizesOk (s : StyledNode) (d0 : Dimensions)
    (hs : stylesNonneg s.styles) (hd0 : dimsSizesOk d0) :
    dimsSizesOk (calculate_height s d0) := by
  obtain ⟨e1, e2, e3, e4, e5, e6, e7, e8, e9, e10, e11, e12⟩ := hd0
  unfold calculate_height
  cases hv : s.value "height" with
  | none => exact ⟨e1, e2, e3, e4, e5, e6, e7, e8, e9, e10, e11, e12⟩
  | some v =>
    cases v with
    | Length n u =>
      exact ⟨e1, value_nonneg s "height" n u hs hv, e3, e4, e5, e6, e7, e8, e9, e10, e11, e12⟩
    | Color r g b a => exact ⟨e1, e2, e3, e4, e5, e6, e7, e8, e9, e10, e11, e12⟩
    | Other str => exact ⟨e1, e2, e3, e4, e5, e6, e7, e8, e9, e10, e11, e12⟩

theorem preFlush_sizesOk (d : Dimensions) (m : ℚ) (p t : BoxType)
    (hd : dimsSizesOk d) (hm : 0 ≤ m) : dimsSizesOk (preFlush d m p t) := by
  obtain ⟨e1, e2, e3, e4, e5, e6, e7, e8, e9, e10, e11, e12⟩ := hd
  rcases preFlush_cases d m p t with h | h <;> rw [h]
  · exact ⟨e1, e2, e3, e4, e5, e6, e7, e8, e9, e10, e11, e12⟩
  · exact ⟨e1, by dsimp only []; linarith, e3, e4, e5, e6, e7, e8, e9, e10, e11, e12⟩

theorem rowMax_nonneg (new maxH : ℚ) (h1 : 0 ≤ new) (h2 : 0 ≤ maxH) :
    0 ≤ rowMax new maxH := by
  unfold rowMax
  split <;> assumption

theorem BoxAll.self {P : LayoutBox → Prop} {b : LayoutBox} (h : BoxAll P b) : P b := by
  cases h with
  | mk t s d cs hp hcs => exact hp

theorem BoxAll.child {P : LayoutBox → Prop} {b : LayoutBox} (h : BoxAll P b) :
    ∀ c ∈ b.children, BoxAll P c := by
  cases h with
  | mk t s d cs hp hcs => exact hcs

theorem BoxAll.mono {P Q : LayoutBox → Prop} (hPQ : ∀ b, P b → Q b) :
    ∀ b, BoxAll P b → BoxAll Q b
  | _, .mk t s d cs hp hcs =>
    .mk t s d cs (hPQ _ hp) (fun c hc => BoxAll.mono hPQ c (hcs c hc))

/-- One child iteration keeps the size invariant, given that the child
layout function does. -/
theorem layout_child_step_pre
    (F : LayoutBox → Dimensions → Except LayoutErr LayoutBox)
    (hF : ∀ (b : LayoutBox) (b_box : Dimensions) (b' : LayoutBox),
      BoxAll boxPre b → 0 ≤ b_box.content.width → F b b_box = .ok b' → BoxAll boxPre b')
    (d : Dimensions) (maxH : ℚ) (prev : BoxType) (c : LayoutBox)
    (r : Dimensions × ℚ × LayoutBox)
    (hd : dimsSizesOk d) (hm : 0 ≤ maxH) (hc : BoxAll boxPre c)
    (h : layout_child_step F d maxH prev c = .ok r) :
    dimsSizesOk r.1 ∧ 0 ≤ r.2.1 ∧ BoxAll boxPre r.2.2 := by
  have hdA : dimsSizesOk (preFlush d maxH prev c.box_type) :=
    preFlush_sizesOk d maxH prev c.box_type hd hm
  obtain ⟨a1, a2, a3, a4, a5, a6, a7, a8, a9, a10, a11, a12⟩ := hdA
  unfold layout_child_step at h
  dsimp only [] at h
  cases hl : F c (preFlush d maxH prev c.box_type) with
  | error e => rw [hl] at h; exact Except.noConfusion h
  | ok c1 =>
    rw [hl] at h
    dsimp only [] at h
    have hc1 : BoxAll boxPre c1 := hF c _ c1 hc a1 hl
    have hc1d : dimsSizesOk c1.dimensions := hc1.self.2
    have hmb : 0 ≤ c1.dimensions.margin_box.height := margin_box_height_nonneg _ hc1d
    have hmax1 : 0 ≤ rowMax c1.dimensions.margin_box.height maxH := rowMax_nonneg _ _ hmb hm
    split at h
    · injection h with h1
      subst h1
      refine ⟨⟨a1, ?_, a3, a4, a5, a6, a7, a8, a9, a10, a11, a12⟩, hmax1, hc1⟩
      dsimp only []
      linarith
    · split at h
      · cases hl2 : F c1 ({ preFlush d maxH prev c.box_type with
            content.height := (preFlush d maxH prev c.box_type).content.height
              + rowMax c1.dimensions.margin_box.height maxH
            current.x := 0 }) with
        | error e => rw [hl2] at h; exact Except.noConfusion h
        | ok c2 =>
          rw [hl2] at h
          injection h with h1
          subst h1
          have hc2 : BoxAll boxPre c2 := by
            refine hF c1 _ c2 hc1 ?_ hl2
            exact a1
          refine ⟨⟨a1, ?_, a3, a4, a5, a6, a7, a8, a9, a10, a11, a12⟩, hmax1, hc2⟩
          dsimp only []
          linarith
      · injection h with h1
        subst h1
        exact ⟨⟨a1, a2, a3, a4, a5, a6, a7, a8, a9, a10, a11, a12⟩, hmax1, hc1⟩
    · injection h with h1
      subst h1
      exact ⟨⟨a1, a2, a3, a4, a5, a6, a7, a8, a9, a10, a11, a12⟩, hmax1, hc1⟩

/-- The all-zero dimensions satisfy the size invariant. -/
theorem dimsSizesOk_default : dimsSizesOk Dimensions.default0 :=
  ⟨le_refl 0, le_refl 0, le_refl 0, le_refl 0, le_refl 0, le_refl 0,
    le_refl 0, le_refl 0, le_refl 0, le_refl 0, le_refl 0, le_refl 0⟩

theorem layout_children_go_pre
    (F : LayoutBox → Dimensions → Except LayoutErr LayoutBox)
    (hF : ∀ (b : LayoutBox) (b_box : Dimensions) (b' : LayoutBox),
      BoxAll boxPre b → 0 ≤ b_box.content.width → F b b_box = .ok b' → BoxAll boxPre b') :
    ∀ (cs : List LayoutBox) (d : Dimensions) (maxH : ℚ) (prev : BoxType)
      (r : Dimensions × ℚ × List LayoutBox),
      dimsSizesOk d → 0 ≤ maxH → (∀ c ∈ cs, BoxAll boxPre c) →
      layout_children_go F d maxH prev cs = .ok r →
      dimsSizesOk r.1 ∧ 0 ≤ r.2.1 ∧ ∀ c ∈ r.2.2, BoxAll boxPre c
  | [], d, maxH, prev, r, hd, hm, _, h => by
    injection h with h1
    subst h1
    exact ⟨hd, hm, by intro c hc; exact absurd hc (List.not_mem_nil c)⟩
  | c :: cs, d, maxH, prev, r, hd, hm, hcs, h => by
    unfold layout_children_go at h
    cases hs : layout_child_step F d maxH prev c with
    | error e => rw [hs] at h; exact Except.noConfusion h
    | ok p =>
      obtain ⟨d1, m1, c1⟩ := p
      rw [hs] at h
      dsimp only [] at h
      cases hgo : layout_children_go F d1 m1 c.box_type cs with
      | error e => rw [hgo] at h; exact Except.noConfusion h
      | ok q =>
        obtain ⟨d2, m2, cs1⟩ := q
        rw [hgo] at h
        injection h with h1
        subst h1
        obtain ⟨sd, sm, sc⟩ := layout_child_step_pre F hF d maxH prev c (d1, m1, c1)
          hd hm (hcs c (List.mem_cons_self c cs)) hs
        obtain ⟨gd, gm, gc⟩ := layout_children_go_pre F hF cs d1 m1 c.box_type (d2, m2, cs1)
          sd sm (fun x hx => hcs x (List.mem_cons_of_mem c hx)) hgo
        refine ⟨gd, gm, ?_⟩
        intro x hx
        rcases List.mem_cons.mp hx with rfl | hx2
        · exact sc
        · exact gc x hx2

theorem layoutN_pre :
    ∀ (fuel : ℕ) (b : LayoutBox) (b_box : Dimensions) (b' : LayoutBox),
      BoxAll boxPre b → 0 ≤ b_box.content.width → layoutN fuel b b_box = .ok b' →
      BoxAll boxPre b'
  | 0, b, b_box, b', hb, _, h => by
    injection h with h1; subst h1; exact hb
  | fuel + 1, b, b_box, b', hb, hw, h => by
    obtain ⟨t, s, dm, cs⟩ := b
    have hhead : boxPre (LayoutBox.mk t s dm cs) := hb.self
    have hch : ∀ c ∈ cs, BoxAll boxPre c := hb.child
    unfold layoutN at h
    dsimp only [LayoutBox.box_type] at h
    cases t with
    | Anonymous =>
      injection h with h1; subst h1; exact hb
    | Block =>
      unfold layout_block_with at h
      dsimp only [LayoutBox.styled_node, LayoutBox.dimensions, LayoutBox.children] at h
      cases hw1 : calculate_width s dm b_box with
      | error e => rw [hw1] at h; exact Except.noConfusion h
      | ok d1 =>
        rw [hw1] at h
        dsimp only [] at h
        have hd1 : dimsSizesOk d1 := calculate_width_sizesOk s dm b_box d1 hhead.1 hhead.2 hw hw1
        have hd2 : dimsSizesOk (calculate_position s d1 b_box) :=
          calculate_position_sizesOk s d1 b_box hhead.1 hd1
        cases hgo : layout_children_go (layoutN fuel) (calculate_position s d1 b_box)
            0 BoxType.Block cs with
        | error e => rw [hgo] at h; exact Except.noConfusion h
        | ok q =>
          obtain ⟨d3, m3, cs1⟩ := q
          rw [hgo] at h
          injection h with h1
          subst h1
          obtain ⟨gd, gm, gc⟩ := layout_children_go_pre (layoutN fuel) (layoutN_pre fuel)
            cs (calculate_position s d1 b_box) 0 BoxType.Block (d3, m3, cs1)
            hd2 (le_refl 0) hch hgo
          exact BoxAll.mk BoxType.Block s (calculate_height s d3) cs1
            ⟨hhead.1, calculate_height_sizesOk s d3 hhead.1 gd⟩ gc
    | Inline =>
      unfold layout_block_with at h
      dsimp only [LayoutBox.styled_node, LayoutBox.dimensions, LayoutBox.children] at h
      cases hw1 : calculate_width s dm b_box with
      | error e => rw [hw1] at h; exact Except.noConfusion h
      | ok d1 =>
        rw [hw1] at h
        dsimp only [] at h
        have hd1 : dimsSizesOk d1 := calculate_width_sizesOk s dm b_box d1 hhead.1 hhead.2 hw hw1
        have hd2 : dimsSizesOk (calculate_position s d1 b_box) :=
          calculate_position_sizesOk s d1 b_box hhead.1 hd1
        cases hgo : layout_children_go (layoutN fuel) (calculate_position s d1 b_box)
            0 BoxType.Block cs with
        | error e => rw [hgo] at h; exact Except.noConfusion h
        | ok q =>
          obtain ⟨d3, m3, cs1⟩ := q
          rw [hgo] at h
          injection h with h1
          subst h1
          obtain ⟨gd, gm, gc⟩ := layout_children_go_pre (layoutN fuel) (layoutN_pre fuel)
            cs (calculate_position s d1 b_box) 0 BoxType.Block (d3, m3, cs1)
            hd2 (le_refl 0) hch hgo
          exact BoxAll.mk BoxType.Inline s (calculate_height s d3) cs1
            ⟨hhead.1, calculate_height_sizesOk s d3 hhead.1 gd⟩ gc
    | InlineBlock =>
      unfold layout_inline_block_with at h
      dsimp only [LayoutBox.styled_node, LayoutBox.dimensions, LayoutBox.children] at h
      cases hw1 : calculate_inline_width s dm b_box with
      | error e => rw [hw1] at h; exact Except.noConfusion h
      | ok d1 =>
        rw [hw1] at h
        dsimp only [] at h
        have hd1 : dimsSizesOk d1 :=
          calculate_inline_width_sizesOk s dm b_box d1 hhead.1 hhead.2 hw hw1
        have hd2 : dimsSizesOk (calculate_inline_position s d1 b_box) :=
          calculate_inline_position_sizesOk s d1 b_box hhead.1 hd1
        cases hgo : layout_children_go (layoutN fuel) (calculate_inline_position s d1 b_box)
            0 BoxType.Block cs with
        | error e => rw [hgo] at h; exact Except.noConfusion h
        | ok q =>
          obtain ⟨d3, m3, cs1⟩ := q
          rw [hgo] at h
          injection h with h1
          subst h1
          obtain ⟨gd, gm, gc⟩ := layout_children_go_pre (layoutN fuel) (layoutN_pre fuel)
            cs (calculate_inline_position s d1 b_box) 0 BoxType.Block (d3, m3, cs1)
            hd2 (le_refl 0) hch hgo
          exact BoxAll.mk BoxType.InlineBlock s (calculate_height s d3) cs1
            ⟨hhead.1, calculate_height_sizesOk s d3 hhead.1 gd⟩ gc

/-- Every box of the built tree comes from a kept child. -/
theorem mem_build_children :
    ∀ (cs : List StyledNode) (b : LayoutBox),
      b ∈ build_children cs → ∃ c ∈ cs, b = build_layout_tree c
  | [], b, h => absurd h (by simp [build_children])
  | c :: cs, b, h => by
    unfold build_children at h
    split at h
    · obtain ⟨c0, hc0, hb⟩ := mem_build_children cs b h
      exact ⟨c0, List.mem_cons_of_mem c hc0, hb⟩
    · rcases List.mem_cons.mp h with rfl | h2
      · exact ⟨c, List.mem_cons_self c cs, rfl⟩
      · obtain ⟨c0, hc0, hb⟩ := mem_build_children cs b h2
        exact ⟨c0, List.mem_cons_of_mem c hc0, hb⟩

/-- The built tree carries the invariant when the styled tree has
nonnegative declared lengths: all dimensions start at zero. -/
theorem build_layout_tree_pre (n : StyledNode) (h : SNodeAll nodeStylesNonneg n) :
    BoxAll boxPre (build_layout_tree n) := by
  induction h with
  | mk st cs hP hcs ih =>
    unfold build_layout_tree
    refine BoxAll.mk _ _ _ _ ⟨hP, dimsSizesOk_default⟩ ?_
    intro c hcmem
    obtain ⟨c0, hc0, rfl⟩ := mem_build_children cs c hcmem
    exact ih c0 hc0

/-- The public layout entry point keeps the invariant. -/
theorem layout_tree_pre (root : StyledNode) (cb : Dimensions) (b' : LayoutBox)
    (hroot : SNodeAll nodeStylesNonneg root) (hcb : 0 ≤ cb.content.width)
    (h : layout_tree root cb = .ok b') : BoxAll boxPre b' := by
  unfold layout_tree at h
  dsimp only [] at h
  refine layoutN_pre (styledDepth root) (build_layout_tree root) _ b'
    (build_layout_tree_pre root hroot) ?_ h
  exact hcb

/-- Pruning: a none-display child contributes no boxes, wherever it
sits among its siblings. -/
theorem build_children_skip_none :
    ∀ (cs1 : List StyledNode) (cs2 : List StyledNode) (c : StyledNode),
      c.get_display = Display.None →
      build_children (cs1 ++ c :: cs2) = build_children (cs1 ++ cs2)
  | [], cs2, c, hc => by
    simp only [List.nil_append]
    show build_children (c :: cs2) = build_children cs2
    conv_lhs => rw [build_children]
    rw [hc]
  | a :: as, cs2, c, hc => by
    simp only [List.cons_append]
    unfold build_children
    cases ha : a.get_display <;>
      simp [ha, build_children_skip_none as cs2 c hc]

theorem build_styled_node (n : StyledNode) : (build_layout_tree n).styled_node = n := by
  obtain ⟨st, cs⟩ := n
  rfl

theorem build_box_type_anon (n : StyledNode) :
    (build_layout_tree n).box_type = BoxType.Anonymous ↔ n.get_display = Display.None := by
  obtain ⟨st, cs⟩ := n
  unfold build_layout_tree
  dsimp only [LayoutBox.box_type]
  cases hdisp : (StyledNode.mk st cs).get_display <;> simp [hdisp]

theorem get_absolute_num_error_iff (s : StyledNode) (b_box : Dimensions) (p : String) :
    get_absolute_num s b_box p = .error .unimplementedUnit ↔
      ∃ (n : ℚ) (u : Unit), s.value p = some (.Length n u) ∧ u ≠ .Px ∧ u ≠ .Pct := by
  unfold get_absolute_num
  cases hv : s.value p with
  | none => simp
  | some v =>
    cases v with
    | Length n u =>
      cases u <;> simp <;> exact ⟨n, _, ⟨rfl, rfl⟩, by simp, by simp⟩
    | Color r g b a => simp
    | Other str => simp

theorem calculate_width_error_iff (s : StyledNode) (d0 b_box : Dimensions) :
    calculate_width s d0 b_box = .error .unimplementedUnit ↔
      get_absolute_num s b_box "width" = .error .unimplementedUnit := by
  unfold calculate_width
  cases hga : get_absolute_num s b_box "width" with
  | error e => cases e; simp
  | ok w0 =>
    dsimp only []
    constructor
    · intro hcon
      split at hcon
      · split at hcon <;> exact Except.noConfusion hcon
      · split at hcon <;> exact Except.noConfusion hcon
    · intro hcon
      exact Except.noConfusion hcon

theorem calculate_inline_width_error_iff (s : StyledNode) (d0 b_box : Dimensions) :
    calculate_inline_width s d0 b_box = .error .unimplementedUnit ↔
      get_absolute_num s b_box "width" = .error .unimplementedUnit := by
  unfold calculate_inline_width
  cases hga : get_absolute_num s b_box "width" with
  | error e => cases e; simp
  | ok w0 =>
    constructor
    · intro hcon
      exact Except.noConfusion hcon
    · intro hcon
      exact Except.noConfusion hcon

/-- What one layout_children iteration does to an inline-block child:
place at the cursor, advance the cursor, and wrap to a fresh row when the
advanced cursor exceeds the content width. -/
theorem inline_step_spec (fuel : ℕ) (d : Dimensions) (maxH : ℚ) (prev : BoxType)
    (c c1 : LayoutBox)
    (hc : c.box_type = .InlineBlock)
    (h : layoutN fuel c d = .ok c1) :
    (d.current.x + c1.dimensions.margin_box.width ≤ d.content.width →
      layout_child_step (layoutN fuel) d maxH prev c =
        .ok ({ d with current.x := d.current.x + c1.dimensions.margin_box.width },
          rowMax c1.dimensions.margin_box.height maxH, c1)) ∧
    (d.current.x + c1.dimensions.margin_box.width > d.content.width →
      ∀ c2 : LayoutBox, layoutN fuel c1
          { d with
            content.height := d.content.height + rowMax c1.dimensions.margin_box.height maxH
            current.x := 0 } = .ok c2 →
        layout_child_step (layoutN fuel) d maxH prev c =
          .ok ({ d with
            content.height := d.content.height + rowMax c1.dimensions.margin_box.height maxH
            current.x := c2.dimensions.margin_box.width },
            rowMax c1.dimensions.margin_box.height maxH, c2)) := by
  have hc1 : c1.box_type = BoxType.InlineBlock := (layoutN_box_type fuel c d c1 h).trans hc
  constructor
  · intro hle
    unfold layout_child_step
    rw [hc, preFlush_inline]
    dsimp only []
    rw [h]
    dsimp only []
    rw [hc1]
    rw [if_neg (not_lt.mpr hle)]
  · intro hgt c2 h2
    unfold layout_child_step
    rw [hc, preFlush_inline]
    dsimp only []
    rw [h]
    dsimp only []
    rw [hc1]
    rw [if_pos hgt]
    dsimp only []
    rw [h2]
    simp [zero_add]

/-- The running row maximum never decreases: the update joins the new
height into the old maximum and no arm resets it. -/
theorem rowMax_le (new maxH : ℚ) : maxH ≤ rowMax new maxH := by
  unfold rowMax
  split
  · exact le_of_lt (by assumption)
  · exact le_refl maxH

theorem layout_child_step_max_mono
    (F : LayoutBox → Dimensions → Except LayoutErr LayoutBox)
    (d : Dimensions) (maxH : ℚ) (prev : BoxType) (c : LayoutBox)
    (r : Dimensions × ℚ × LayoutBox)
    (h : layout_child_step F d maxH prev c = .ok r) : maxH ≤ r.2.1 := by
  unfold layout_child_step at h
  dsimp only [] at h
  split at h
  · exact Except.noConfusion h
  · split at h
    · injection h with h1; subst h1; exact rowMax_le _ _
    · split at h
      · split at h
        · exact Except.noConfusion h
        · injection h with h1; subst h1; exact rowMax_le _ _
      · injection h with h1; subst h1; exact rowMax_le _ _
    · injection h with h1; subst h1; exact rowMax_le _ _

theorem layout_children_go_max_mono
    (F : LayoutBox → Dimensions → Except LayoutErr LayoutBox) :
    ∀ (cs : List LayoutBox) (d : Dimensions) (maxH : ℚ) (prev : BoxType)
      (r : Dimensions × ℚ × List LayoutBox),
      layout_children_go F d maxH prev cs = .ok r → maxH ≤ r.2.1
  | [], d, maxH, prev, r, h => by
    injection h with h1; subst h1; exact le_refl maxH
  | c :: cs, d, maxH, prev, r, h => by
    unfold layout_children_go at h
    cases hs : layout_child_step F d maxH prev c with
    | error e => rw [hs] at h; exact Except.noConfusion h
    | ok p =>
      obtain ⟨d1, m1, c1⟩ := p
      rw [hs] at h
      dsimp only [] at h
      cases hgo : layout_children_go F d1 m1 c.box_type cs with
      | error e => rw [hgo] at h; exact Except.noConfusion h
      | ok q =>
        obtain ⟨d2, m2, cs1⟩ := q
        rw [hgo] at h
        injection h with h1
        subst h1
        exact le_trans (layout_child_step_max_mono F d maxH prev c (d1, m1, c1) hs)
          (layout_children_go_max_mono F cs d1 m1 c.box_type (d2, m2, cs1) hgo)

/-! ## The claims -/

/-- C1: for a block-mode box whose resolved width is unspecified (the 0
sentinel), calculate_width gives a nonnegative underflow entirely to the
content width and keeps the declared-or-0 numeric margins, while a
negative underflow leaves the content width at 0 and is absorbed by the
right margin; containing width 200 with no declarations yields content
width 200 and zero margins. -/
theorem C1_auto_width :
    (∀ (s : StyledNode) (d0 b_box : Dimensions),
      (get_absolute_num s b_box "width" = .ok none ∨
        get_absolute_num s b_box "width" = .ok (some 0)) →
      ∃ d1, calculate_width s d0 b_box = .ok d1 ∧
        d1.margin.left = marginNum s "margin-left" ∧
        (0 ≤ widthUnderflow s b_box 0 →
          d1.content.width = widthUnderflow s b_box 0 ∧
          d1.margin.right = marginNum s "margin-right") ∧
        (widthUnderflow s b_box 0 < 0 →
          d1.content.width = 0 ∧
          d1.margin.right = marginNum s "margin-right" + widthUnderflow s b_box 0)) ∧
    cwField (calculate_width snEmpty Dimensions.default0 cb200) (fun d => d.content.width) = 200 ∧
    cwField (calculate_width snEmpty Dimensions.default0 cb200) (fun d => d.margin.left) = 0 ∧
    cwField (calculate_width snEmpty Dimensions.default0 cb200) (fun d => d.margin.right) = 0 := by
  refine ⟨?_, by decide, by decide, by decide⟩
  intro s d0 b_box hw
  have hml : (match s.value "margin-left" with
      | some m => otherNum m
      | none => 0) = marginNum s "margin-left" := by
    unfold marginNum; rfl
  have hmr : (match s.value "margin-right" with
      | some m => otherNum m
      | none => 0) = marginNum s "margin-right" := by
    unfold marginNum; rfl
  rcases hw with hw | hw <;>
  · simp only [calculate_width, hw]
    simp only [Option.getD, hml, hmr, if_true]
    split_ifs with hu
    · exact ⟨_, rfl, rfl, fun _ => ⟨rfl, rfl⟩,
        fun h2 => absurd (hu : (0:ℚ) ≤ widthUnderflow s b_box 0) (not_le.mpr h2)⟩
    · exact ⟨_, rfl, rfl,
        fun h2 => absurd (h2 : (0:ℚ) ≤ widthUnderflow s b_box 0) hu, fun _ => ⟨rfl, rfl⟩⟩

/-- Witness for C1 at the concrete auto-width instance. -/
theorem C1_auto_width_witness :
    ∃ d1, calculate_width snEmpty Dimensions.default0 cb200 = .ok d1 ∧
      d1.margin.left = marginNum snEmpty "margin-left" ∧
      (0 ≤ widthUnderflow snEmpty cb200 0 →
        d1.content.width = widthUnderflow snEmpty cb200 0 ∧
        d1.margin.right = marginNum snEmpty "margin-right") ∧
      (widthUnderflow snEmpty cb200 0 < 0 →
        d1.content.width = 0 ∧
        d1.margin.right = marginNum snEmpty "margin-right" + widthUnderflow snEmpty cb200 0) :=
  C1_auto_width.1 snEmpty Dimensions.default0 cb200 (Or.inl rfl)

/-- C2: for a block-mode box with a nonzero resolved width and neither
margin declared, calculate_width keeps the declared width and splits the
underflow evenly between the margins; containing width 200 and width 100
yield margins of 50. -/
theorem C2_symmetric_margins :
    (∀ (s : StyledNode) (d0 b_box : Dimensions) (w : ℚ),
      get_absolute_num s b_box "width" = .ok (some w) → w ≠ 0 →
      s.value "margin-left" = none → s.value "margin-right" = none →
      ∃ d1, calculate_width s d0 b_box = .ok d1 ∧
        d1.content.width = w ∧
        d1.margin.left = widthUnderflow s b_box w / 2 ∧
        d1.margin.right = widthUnderflow s b_box w / 2) ∧
    cwField (calculate_width snW100 Dimensions.default0 cb200) (fun d => d.content.width) = 100 ∧
    cwField (calculate_width snW100 Dimensions.default0 cb200) (fun d => d.margin.left) = 50 ∧
    cwField (calculate_width snW100 Dimensions.default0 cb200) (fun d => d.margin.right) = 50 := by
  refine ⟨?_, by decide, by decide, by decide⟩
  intro s d0 b_box w hw hw0 hml hmr
  simp only [calculate_width, hw, hml, hmr, Option.getD]
  rw [if_neg hw0]
  refine ⟨_, rfl, rfl, ?_, ?_⟩ <;>
  · show _ = widthUnderflow s b_box w / 2
    simp [widthUnderflow, marginNum, hml, hmr]

/-- Witness for C2 at the concrete symmetric-margin instance. -/
theorem C2_symmetric_margins_witness :
    ∃ d1, calculate_width snW100 Dimensions.default0 cb200 = .ok d1 ∧
      d1.content.width = 100 ∧
      d1.margin.left = widthUnderflow snW100 cb200 100 / 2 ∧
      d1.margin.right = widthUnderflow snW100 cb200 100 / 2 :=
  C2_symmetric_margins.1 snW100 Dimensions.default0 cb200 100 rfl (by norm_num) rfl rfl

/-- C3: for a block-mode box with a nonzero resolved width and both
margins declared, calculate_width keeps the declared width and left
margin and adds the underflow to the right margin; containing width 200,
width 100 and numeric margins 20 yield right margin 80 and left margin
20. -/
theorem C3_overconstrained_margins :
    (∀ (s : StyledNode) (d0 b_box : Dimensions) (w : ℚ) (vl vr : Value),
      get_absolute_num s b_box "width" = .ok (some w) → w ≠ 0 →
      s.value "margin-left" = some vl → s.value "margin-right" = some vr →
      ∃ d1, calculate_width s d0 b_box = .ok d1 ∧
        d1.content.width = w ∧
        d1.margin.left = otherNum vl ∧
        d1.margin.right = otherNum vr + widthUnderflow s b_box w) ∧
    cwField (calculate_width snC3 Dimensions.default0 cb200) (fun d => d.content.width) = 100 ∧
    cwField (calculate_width snC3 Dimensions.default0 cb200) (fun d => d.margin.left) = 20 ∧
    cwField (calculate_width snC3 Dimensions.default0 cb200) (fun d => d.margin.right) = 80 := by
  refine ⟨?_, by decide, by decide, by decide⟩
  intro s d0 b_box w vl vr hw hw0 hml hmr
  simp only [calculate_width, hw, hml, hmr, Option.getD]
  rw [if_neg hw0]
  refine ⟨_, rfl, rfl, rfl, ?_⟩
  show _ = otherNum vr + widthUnderflow s b_box w
  simp [widthUnderflow, marginNum, hml, hmr]

/-- Witness for C3 at the concrete over-constrained instance. -/
theorem C3_overconstrained_margins_witness :
    ∃ d1, calculate_width snC3 Dimensions.default0 cb200 = .ok d1 ∧
      d1.content.width = 100 ∧
      d1.margin.left = otherNum (.Other "20") ∧
      d1.margin.right = otherNum (.Other "20") + widthUnderflow snC3 cb200 100 :=
  C3_overconstrained_margins.1 snC3 Dimensions.default0 cb200 100 (.Other "20") (.Other "20")
    rfl (by norm_num) rfl rfl

/-- C4 counterexample: the claim states a wrap advances the content
height by the tallest margin-box height of the current row; but the
running maximum of layout_children is never reset at a row break, so
with five inline-block children of width 40 and heights 50, 10, 10, 10,
10 in a parent of content width 100, the second wrap adds the running
maximum 50 (the height of the first child, in the first row), landing
the fifth child at y 100 where a per-row maximum would put it at y 60,
and the parent content height ends at 100. -/
theorem C4_counterexample :
    childrenXs (layout_tree snParent4c cb100) = [0, 40, 0, 40, 0] ∧
    childrenYs (layout_tree snParent4c cb100) = [0, 0, 50, 50, 100] ∧
    resField (layout_tree snParent4c cb100) (fun d => d.content.height) = 100 :=
  ⟨by decide, by decide, by decide⟩

/-- C4 amended: an inline-block child is placed at the row cursor of the
parent and the cursor advances by the margin-box width of the child;
when the advanced cursor exceeds the parent content width, the content
height grows by the running maximum margin-box height over all children
processed so far — not by a per-row maximum, since the running maximum
is never reset at a row break — the cursor resets, and the child is laid
out again at the new row origin. Concretely: parent content width 100,
three inline-block children of width 40 and height 10 land at x offsets
0, 40 and 0, the third on a new row at y 10, the cursor reading 80 after
two children and 40 after the wrap, the parent content height having
grown by that row maximum 10. -/
theorem C4_inline_row_flow_amended :
    (∀ (fuel : ℕ) (c : LayoutBox) (d : Dimensions) (c1 : LayoutBox),
      c.box_type = .InlineBlock →
      layoutN (fuel + 1) c d = .ok c1 →
      c1.dimensions.content.x = d.content.x + d.current.x
        + c.styled_node.num_or "margin-left" 0 + c.styled_node.num_or "border-left-width" 0
        + c.styled_node.num_or "padding-left" 0) ∧
    (∀ (fuel : ℕ) (d : Dimensions) (maxH : ℚ) (prev : BoxType) (c c1 : LayoutBox),
      c.box_type = .InlineBlock →
      layoutN fuel c d = .ok c1 →
      (d.current.x + c1.dimensions.margin_box.width ≤ d.content.width →
        layout_child_step (layoutN fuel) d maxH prev c =
          .ok ({ d with current.x := d.current.x + c1.dimensions.margin_box.width },
            rowMax c1.dimensions.margin_box.height maxH, c1)) ∧
      (d.current.x + c1.dimensions.margin_box.width > d.content.width →
        ∀ c2 : LayoutBox, layoutN fuel c1
            { d with
              content.height := d.content.height + rowMax c1.dimensions.margin_box.height maxH
              current.x := 0 } = .ok c2 →
          layout_child_step (layoutN fuel) d maxH prev c =
            .ok ({ d with
              content.height := d.content.height + rowMax c1.dimensions.margin_box.height maxH
              current.x := c2.dimensions.margin_box.width },
              rowMax c1.dimensions.margin_box.height maxH, c2))) ∧
    (∀ (F : LayoutBox → Dimensions → Except LayoutErr LayoutBox)
      (cs : List LayoutBox) (d : Dimensions) (maxH : ℚ) (prev : BoxType)
      (r : Dimensions × ℚ × List LayoutBox),
      layout_children_go F d maxH prev cs = .ok r → maxH ≤ r.2.1) ∧
    childrenXs (layout_tree snParent4 cb100) = [0, 40, 0] ∧
    childrenYs (layout_tree snParent4 cb100) = [0, 0, 10] ∧
    resField (layout_tree snParent4b cb100) (fun d => d.current.x) = 80 ∧
    resField (layout_tree snParent4 cb100) (fun d => d.current.x) = 40 ∧
    resField (layout_tree snParent4 cb100) (fun d => d.content.height) = 10 := by
  refine ⟨?_, ?_, ?_, by decide, by decide, by decide, by decide, by decide⟩
  · intro fuel c d c1 hc h
    exact (inline_place fuel c d c1 hc h).1
  · intro fuel d maxH prev c c1 hc h
    exact inline_step_spec fuel d maxH prev c c1 hc h
  · intro F cs d maxH prev r h
    exact layout_children_go_max_mono F cs d maxH prev r h

/-- Witness for C4 amended: the placement equation at a concrete
inline-block child, containing width 100 and cursor 40. -/
theorem C4_inline_row_flow_amended_witness :
    (resultBox (layoutN 1 (build_layout_tree snIB) dWit)
        (build_layout_tree snIB)).dimensions.content.x
      = dWit.content.x + dWit.current.x
        + (build_layout_tree snIB).styled_node.num_or "margin-left" 0
        + (build_layout_tree snIB).styled_node.num_or "border-left-width" 0
        + (build_layout_tree snIB).styled_node.num_or "padding-left" 0 :=
  C4_inline_row_flow_amended.1 0 (build_layout_tree snIB) dWit _ rfl rfl

/-- C5 counterexample: the claim states that a Length read where a
numeric height is required (calculate_height) with a unit other than
pixel or percent raises the unimplemented-unit fatal condition; but a
height declared as 10 em lays out without error and the raw magnitude 10
becomes the content height. -/
theorem C5_counterexample :
    resultOk (layout_tree snHEm cb200) = true ∧
    resField (layout_tree snHEm cb200) (fun d => d.content.height) = 10 :=
  ⟨by decide, by decide⟩

/-- C5 amended: the unimplemented-unit condition arises exactly when a
Length with a unit other than pixel or percent is read through
get_absolute_num, which only declared widths are; the width passes fail
exactly when that read fails; declared heights take the raw magnitude of
any unit and never fail; a width declared in em is fatal for the whole
layout. -/
theorem C5_unit_fatal_only_for_widths :
    (∀ (s : StyledNode) (b_box : Dimensions) (p : String),
      get_absolute_num s b_box p = .error .unimplementedUnit ↔
        ∃ (n : ℚ) (u : Unit), s.value p = some (.Length n u) ∧ u ≠ .Px ∧ u ≠ .Pct) ∧
    (∀ (s : StyledNode) (d0 b_box : Dimensions),
      calculate_width s d0 b_box = .error .unimplementedUnit ↔
        get_absolute_num s b_box "width" = .error .unimplementedUnit) ∧
    (∀ (s : StyledNode) (d0 b_box : Dimensions),
      calculate_inline_width s d0 b_box = .error .unimplementedUnit ↔
        get_absolute_num s b_box "width" = .error .unimplementedUnit) ∧
    (∀ (s : StyledNode) (d0 : Dimensions) (n : ℚ) (u : Unit),
      s.value "height" = some (.Length n u) →
      (calculate_height s d0).content.height = n) ∧
    resultOk (layout_tree snWEm cb200) = false := by
  refine ⟨get_absolute_num_error_iff, calculate_width_error_iff,
    calculate_inline_width_error_iff, ?_, by decide⟩
  intro s d0 n u h
  unfold calculate_height
  rw [h]

/-- Witness for C5 amended: a pixel width read fails for no unit, and
the em height of the concrete fixture resolves to its raw magnitude. -/
theorem C5_unit_fatal_only_for_widths_witness :
    (calculate_height snHEm Dimensions.default0).content.height = 10 :=
  C5_unit_fatal_only_for_widths.2.2.2.1 snHEm Dimensions.default0 10 Unit.Em rfl

/-- C6 counterexample: the claim states that a display-none node never
receives a box, whether root or descendant; but layout_tree of a
display-none root returns the box built for that very root (an Anonymous
box, left untouched), and the block child of that root keeps its box in
the returned tree. -/
theorem C6_counterexample :
    layout_tree snNoneRoot cb200 = .ok (build_layout_tree snNoneRoot) ∧
    (build_layout_tree snNoneRoot).styled_node = snNoneRoot ∧
    (build_layout_tree snNoneRoot).box_type = BoxType.Anonymous ∧
    (build_layout_tree snNoneRoot).children.length = 1 :=
  ⟨rfl, rfl, rfl, rfl⟩

/-- C6 amended: every display-none child is pruned with its whole
subtree, wherever it sits among its siblings, so it contributes nothing
to sibling flow or height accumulation; the root however always receives
a box, Anonymous exactly when its display is none. Concretely, a parent
with a none child between two blocks lays out byte-identically to the
parent without that child. -/
theorem C6_none_children_pruned :
    (∀ (cs1 cs2 : List StyledNode) (c : StyledNode),
      c.get_display = Display.None →
      build_children (cs1 ++ c :: cs2) = build_children (cs1 ++ cs2)) ∧
    (∀ n : StyledNode, (build_layout_tree n).styled_node = n) ∧
    (∀ n : StyledNode, ((build_layout_tree n).box_type = BoxType.Anonymous ↔
      n.get_display = Display.None)) ∧
    childrenYs (layout_tree snNoneMid cb200) = childrenYs (layout_tree snNoneMidGone cb200) ∧
    childrenYs (layout_tree snNoneMid cb200) = [0, 30] ∧
    resField (layout_tree snNoneMid cb200) (fun d => d.content.height) =
      resField (layout_tree snNoneMidGone cb200) (fun d => d.content.height) ∧
    resField (layout_tree snNoneMid cb200) (fun d => d.content.height) = 60 := by
  refine ⟨build_children_skip_none, build_styled_node, build_box_type_anon,
    by decide, by decide, by decide, by decide⟩

/-- Witness for C6 amended: the concrete none child of the fixture is
pruned from between its two block siblings. -/
theorem C6_none_children_pruned_witness :
    build_children ([snB30] ++ snNoneChild :: [snB30]) = build_children ([snB30] ++ [snB30]) :=
  C6_none_children_pruned.1 [snB30] [snB30] snNoneChild (by decide)

/-- C7: get_styles scans rules in document order with per-property
overwrite, a later matching rule wins for the properties it declares and
leaves the others intact, and a rule is applied once whenever any of its
selector alternatives matches: lookup in the resolved mapping equals the
last matching declaration of the property in document order. Concretely
the rules class-a color red then class-b color blue, both matching,
resolve color to blue. -/
theorem C7_cascade_order :
    (∀ (e : ElementData) (sheet : Stylesheet) (p : String),
      (get_styles e sheet).lookup p = cascadeSpec e sheet p) ∧
    (get_styles elemAB sheetAB).lookup "color" = some (Value.Other "blue") :=
  ⟨get_styles_lookup, by decide⟩

/-- C8: a selector matches exactly when some simple-selector alternative
holds of the element, where an alternative requires tag absent-or-equal,
id absent-or-equal (an element without id fails every alternative with
an id) and the required classes a subset of the element classes; the
stored combinators are never consulted; the alternatives div.x, span
match a span element without class x. -/
theorem C8_selector_or_matching :
    (∀ (e : ElementData) (sel : Selector),
      selector_matches e sel = true ↔ ∃ ss ∈ sel.simple, simpleHolds e ss) ∧
    (∀ (e : ElementData) (simple : List SimpleSelector) (c1 c2 : List Char),
      selector_matches e ⟨simple, c1⟩ = selector_matches e ⟨simple, c2⟩) ∧
    selector_matches elemSpan selC8 = true :=
  ⟨selector_matches_iff, fun _ _ _ _ => rfl, by decide⟩

/-- Witness for C8: the concrete span element satisfies the second
alternative of the div.x, span selector. -/
theorem C8_selector_or_matching_witness :
    ∃ ss ∈ selC8.simple, simpleHolds elemSpan ss :=
  (C8_selector_or_matching.1 elemSpan selC8).mp (by decide)

/-- C9 counterexample: the claim states every edge size of every laid
out box is nonnegative; but a declared width of 100 inside a containing
block of width 50 makes calculate_width assign half the negative
underflow to each margin, and the layout succeeds with margins of -25. -/
theorem C9_counterexample :
    resultOk (layout_tree snW100 cb50) = true ∧
    resField (layout_tree snW100 cb50) (fun d => d.margin.left) = -25 ∧
    resField (layout_tree snW100 cb50) (fun d => d.margin.right) = -25 :=
  ⟨by decide, by decide, by decide⟩

/-- C9 amended: when every declared Length magnitude in the styled tree
is nonnegative and the containing width is nonnegative, every box of a
successful layout has nonnegative content width and height, padding,
border, and top and bottom margins; the left and right margins are
exempt because they absorb the underflow, which may be negative. -/
theorem C9_sizes_nonneg (root : StyledNode) (cb : Dimensions) (b' : LayoutBox)
    (hroot : SNodeAll nodeStylesNonneg root) (hcb : 0 ≤ cb.content.width)
    (h : layout_tree root cb = .ok b') :
    BoxAll (fun b => dimsSizesOk b.dimensions) b' :=
  BoxAll.mono (fun _ hb => hb.2) b' (layout_tree_pre root cb b' hroot hcb h)

/-- Witness for C9 amended at the empty styled node in a containing
block of width 200. -/
theorem C9_sizes_nonneg_witness :
    BoxAll (fun b => dimsSizesOk b.dimensions)
      (resultBox (layout_tree snEmpty cb200) (build_layout_tree snEmpty)) :=
  C9_sizes_nonneg snEmpty cb200 _
    (SNodeAll.mk [] [] (fun p hp => absurd hp (List.not_mem_nil p))
      (fun c hc => absurd hc (List.not_mem_nil c)))
    (by decide) rfl

/-- C10: every edge-size read through num_or and every declared height
uses the raw magnitude of a Length value with the unit ignored: no
conversion, no containing-block resolution and no fatal condition; a
margin-left of 5 em reads as 5 and a padding-left of 7 cm reads as 7. -/
theorem C10_units_ignored :
    (∀ (s : StyledNode) (name : String) (dflt n : ℚ) (u : Unit),
      s.value name = some (Value.Length n u) → s.num_or name dflt = n) ∧
    (∀ (s : StyledNode) (d0 : Dimensions) (n : ℚ) (u : Unit),
      s.value "height" = some (Value.Length n u) →
      (calculate_height s d0).content.height = n) ∧
    snEmMargin.num_or "margin-left" 0 = 5 ∧
    snEmMargin.num_or "padding-left" 0 = 7 := by
  refine ⟨?_, ?_, by decide, by decide⟩
  · intro s name dflt n u h
    unfold StyledNode.num_or
    rw [h]
  · intro s d0 n u h
    unfold calculate_height
    rw [h]

/-- Witness for C10: the em margin of the concrete fixture reads as its
raw magnitude even with a nonzero default. -/
theorem C10_units_ignored_witness :
    snEmMargin.num_or "margin-left" 3 = 5 :=
  C10_units_ignored.1 snEmMargin "margin-left" 3 5 Unit.Em rfl

end Browser
